import Mathlib

/-!
Verification of the book-record lifecycle and cover-image resolver of
`src/app.py` (a Flask + SQLAlchemy library catalog).

The embedding translates the relevant parts of the source:
  * the configuration constants (`UPLOAD_FOLDER`, `ALLOWED_EXTENSIONS`,
    `MAX_CONTENT_LENGTH`, lines 23-26) and the helper `allowed_file`
    (lines 28-30);
  * `werkzeug.utils.secure_filename`, the sanitizer called by the routes
    (posix behaviour on ASCII input: non-ASCII bytes are dropped, `os.sep`
    is `/`, `os.path.altsep` is `None`, `os.name` is not `"nt"`);
  * the `Book` model (lines 39-45) and a store holding the table rows plus
    the next primary key to hand out;
  * the route bodies `add_book` (lines 72-105), the update logic of
    `edit_book` (lines 115-142), `book_detail` (lines 63-68) and
    `delete_book` (lines 148-157).

Filesystem effects are recorded as a list of `FileWrite` values; database
errors surface as an `Err` value (`get_or_404` -> `notFound`, a `KeyError`
on `request.form[...]` or a `ValueError` from `int(...)` -> `validation`,
the framework's 413 rejection -> `payloadTooLarge`).
-/

namespace BookApp

/-- One character of the set Python's `str.split()` splits on. -/
def isPyWs (c : Char) : Bool :=
  c = ' ' || c = '\t' || c = '\n' || c = '\r' || c.toNat == 11 || c.toNat == 12

/-- ASCII decimal digit. -/
def isDigitCh (c : Char) : Bool := '0' ≤ c && c ≤ '9'

/-- Value of a nonempty all-digit character list; `none` otherwise.
Helper for the model of Python `int(...)`. -/
def digitsVal : List Char → Option Nat
  | [] => none
  | cs =>
    if cs.all isDigitCh then
      some (cs.foldl (fun n c => n * 10 + (c.toNat - 48)) 0)
    else none

/-- Model of Python `int(s)` on a decimal string: surrounding whitespace,
an optional sign, then one or more digits (underscore separators are not
modelled).  Returns `none` when `int(s)` would raise `ValueError`. -/
def pyInt (s : String) : Option Int :=
  let cs := ((s.data.dropWhile isPyWs).reverse.dropWhile isPyWs).reverse
  match cs with
  | '-' :: rest => (digitsVal rest).map (fun n => -(n : Int))
  | '+' :: rest => (digitsVal rest).map (fun n => (n : Int))
  | rest => (digitsVal rest).map (fun n => (n : Int))

/-- Characters kept by werkzeug's `_filename_ascii_strip_re`:
`[A-Za-z0-9_.-]`. -/
def isSafeChar (c : Char) : Bool :=
  ('A' ≤ c && c ≤ 'Z') || ('a' ≤ c && c ≤ 'z') || ('0' ≤ c && c ≤ '9')
  || c = '_' || c = '.' || c = '-'

/-- The character class stripped from both ends by `.strip("._")`. -/
def pDotUnderscore (c : Char) : Bool := c = '.' || c = '_'

/-- Python `str.split()` (no argument): split on runs of whitespace,
discarding empty pieces.  The accumulator holds the current word reversed. -/
def splitWsAux : List Char → List Char → List (List Char)
  | [], [] => []
  | [], cur => [cur.reverse]
  | c :: rest, cur =>
    if isPyWs c then
      if cur.isEmpty then splitWsAux rest []
      else cur.reverse :: splitWsAux rest []
    else splitWsAux rest (c :: cur)

/-- Python `.strip("._")`: drop the maximal run of `.`/`_` characters from
the back, then from the front (the two ends are independent, so the order
does not change the result). -/
def stripDotUnderscore (l : List Char) : List Char :=
  ((l.reverse.dropWhile pDotUnderscore).reverse).dropWhile pDotUnderscore

/-- `werkzeug.utils.secure_filename` on the character list (posix, ASCII):
drop non-ASCII characters (the `NFKD`-normalize-then-ascii-encode step),
replace `os.sep` (`/`) by a space, split on whitespace and rejoin with `_`,
delete every character outside `[A-Za-z0-9_.-]`, and strip `.`/`_` from
both ends.  The Windows device-file branch is dead on posix. -/
def secureFilenameChars (l : List Char) : List Char :=
  let ascii := l.filter (fun c => decide (c.toNat < 128))
  let spaced := ascii.map (fun c => if c = '/' then ' ' else c)
  let joined := List.intercalate ['_'] (splitWsAux spaced [])
  stripDotUnderscore (joined.filter isSafeChar)

/-- `werkzeug.utils.secure_filename` as called by the routes. -/
def secure_filename (s : String) : String :=
  ⟨secureFilenameChars s.data⟩

/-- Prefix test on character lists, helper for `hasSub`. -/
def startsWithChars : List Char → List Char → Bool
  | [], _ => true
  | _ :: _, [] => false
  | p :: ps, c :: cs => p = c && startsWithChars ps cs

/-- Contiguous-substring test: does `pat` occur inside the list? -/
def hasSub (pat : List Char) : List Char → Bool
  | [] => startsWithChars pat []
  | c :: rest => startsWithChars pat (c :: rest) || hasSub pat rest

/-- `app.config['UPLOAD_FOLDER']` (line 23). -/
def UPLOAD_FOLDER : String := "static/images/uploads"

/-- `ALLOWED_EXTENSIONS` (line 25). -/
def ALLOWED_EXTENSIONS : List String := ["png", "jpg", "jpeg", "webp"]

/-- `app.config['MAX_CONTENT_LENGTH']` (line 26): `20 * 1024 * 1024`. -/
def MAX_CONTENT_LENGTH : Nat := 20 * 1024 * 1024

/-- The characters after the last `.`: `filename.rsplit('.', 1)[1]` when a
dot is present. -/
def afterLastDot (l : List Char) : List Char :=
  (l.reverse.takeWhile (fun c => decide (c ≠ '.'))).reverse

/-- `allowed_file` (lines 28-30): `'.' in filename and
filename.rsplit('.', 1)[1].lower() in ALLOWED_EXTENSIONS`. -/
def allowed_file (filename : String) : Bool :=
  filename.data.contains '.' &&
    ALLOWED_EXTENSIONS.contains ⟨(afterLastDot filename.data).map Char.toLower⟩

/-- `os.path.join(a, b)` for two posix path segments. -/
def osPathJoin (a b : String) : String :=
  if b.data.head? = some '/' then b
  else if a.data = [] || a.data.getLast? = some '/' then a ++ b
  else a ++ "/" ++ b

/-- The `book` table row (`class Book(db.Model)`, lines 39-45). -/
structure Book where
  id : Nat
  title : String
  author : String
  year : Int
  description : String
  cover_image : String
deriving DecidableEq, Repr

/-- The persisted state: the table rows plus the next primary key to hand
out.  Modelled from the spec: the key generator itself lives in the
database engine (SQLite via SQLAlchemy), not in `src/`; the spec states
that `id` is assigned exactly once, at creation, and never reused after
deletion, which a monotonically increasing counter realises. -/
structure Store where
  books : List Book
  nextId : Nat
deriving DecidableEq, Repr

/-- A file written to disk by `uploaded_file.save(save_path)`. -/
structure FileWrite where
  path : String
deriving DecidableEq, Repr

/-- Request-scoped failures, named as in the spec's error taxonomy:
`get_or_404` -> `notFound`; a missing form field (`KeyError`) or a failing
`int(...)` (`ValueError`) -> `validation`; the framework's 413 rejection of
an oversized body -> `payloadTooLarge`. -/
inductive Err
  | notFound
  | validation
  | payloadTooLarge
deriving DecidableEq, Repr

deriving instance DecidableEq for Except

/-- The cover-image resolution shared by `add_book` (lines 74-92) and
`edit_book` (lines 124-136): `none` models `'cover_image' not in
request.files`, `some name` a file whose original filename is `name`.
Returns the reference stored on the record and the filesystem write
performed, if any. -/
def resolveCover (upload : Option String) : String × Option FileWrite :=
  match upload with
  | none => ("images/default_cover.jpg", none)
  | some name =>
    if name = "" then ("images/default_cover.jpg", none)
    else
      let filename := secure_filename name
      ("images/uploads/" ++ filename, some ⟨osPathJoin UPLOAD_FOLDER filename⟩)

/-- Construction and commit of the new row (lines 95-104): the engine
assigns `nextId` as the primary key and the row is appended to the table. -/
def createBook (s : Store) (t a : String) (y : Int) (d c : String) :
    Store × Book :=
  let b : Book := ⟨s.nextId, t, a, y, d, c⟩
  (⟨s.books ++ [b], s.nextId + 1⟩, b)

/-- `Book.query.get_or_404(book_id)` as seen through `book_detail`
(lines 63-68): the row with that primary key, or a 404. -/
def getBook (s : Store) (bid : Nat) : Except Err Book :=
  match s.books.find? (fun b => b.id == bid) with
  | some b => .ok b
  | none => .error .notFound

/-- The POST body of `edit_book` (lines 115-142) at the store level: load
the row (404 if absent), overwrite the four scalars unconditionally, and
overwrite `cover_image` exactly when a resolved new reference is supplied
(`newCover = some X` models the branch of lines 124-136 that ran a save and
produced reference `X`; `none` models an absent file or an empty filename,
where line 138's comment applies).  Returns the store after `commit` and
the updated row, or the error with the store untouched. -/
def updateBook (s : Store) (bid : Nat) (t a : String) (y : Int) (d : String)
    (newCover : Option String) : Store × Except Err Book :=
  match s.books.find? (fun b => b.id == bid) with
  | none => (s, .error .notFound)
  | some b =>
    let b' : Book :=
      { b with title := t, author := a, year := y, description := d,
               cover_image := newCover.getD b.cover_image }
    (⟨s.books.map (fun x => if x.id == bid then b' else x), s.nextId⟩, .ok b')

/-- `delete_book` (lines 148-157): load the row (404 if absent), delete it,
commit. -/
def delete_book (s : Store) (bid : Nat) : Store × Except Err Unit :=
  match s.books.find? (fun b => b.id == bid) with
  | none => (s, .error .notFound)
  | some _ => (⟨s.books.filter (fun b => !(b.id == bid)), s.nextId⟩, .ok ())

/-- The four `request.form` fields read by `add_book`/`edit_book`; `none`
models an absent field (`request.form[...]` raises `KeyError`). -/
structure Form where
  title : Option String
  author : Option String
  year : Option String
  description : Option String
deriving DecidableEq, Repr

/-- Outcome of one POST to `/add`: the store afterwards, the filesystem
writes performed, and the created row or the error. -/
structure CreateResult where
  store : Store
  writes : List FileWrite
  outcome : Except Err Book
deriving DecidableEq, Repr

/-- The POST body of `add_book` (lines 73-105), with the source's effect
order: the cover is resolved and the upload saved first (lines 74-92), and
only then are the form fields read and `int(request.form['year'])` parsed
while building the `Book` (lines 95-101); a failure there leaves the saved
file behind and commits no row. -/
def add_book (s : Store) (form : Form) (upload : Option String) :
    CreateResult :=
  let rc := resolveCover upload
  let writes := rc.2.toList
  match form.title, form.author, form.year, form.description with
  | some t, some a, some ys, some d =>
    match pyInt ys with
    | some y =>
      let r := createBook s t a y d rc.1
      ⟨r.1, writes, .ok r.2⟩
    | none => ⟨s, writes, .error .validation⟩
  | _, _, _, _ => ⟨s, writes, .error .validation⟩

/-- Modelled from the spec: the size gate.  `src/` only sets
`MAX_CONTENT_LENGTH` (line 26); the rejection itself is performed by the
web framework (werkzeug), which fails an oversized request body with 413
before the view body — and hence any `save` — runs. -/
def resolveSized (size : Nat) (upload : Option String) :
    Except Err String × List FileWrite :=
  if MAX_CONTENT_LENGTH < size then (.error .payloadTooLarge, [])
  else
    let rc := resolveCover upload
    (.ok rc.1, rc.2.toList)

/-- One request that changes the set of assigned ids: a successful create
or a delete. -/
inductive Op
  | create (t a : String) (y : Int) (d c : String)
  | deleteOp (bid : Nat)

/-- The store after one operation. -/
def applyOp (s : Store) : Op → Store
  | .create t a y d c => (createBook s t a y d c).1
  | .deleteOp bid => (delete_book s bid).1

/-- The ids handed out, in order, over a sequence of operations. -/
def assignedIds (s : Store) : List Op → List Nat
  | [] => []
  | op :: ops =>
    match op with
    | .create _ _ _ _ _ => s.nextId :: assignedIds (applyOp s op) ops
    | .deleteOp _ => assignedIds (applyOp s op) ops

/-! Helper lemmas. -/

theorem mem_stripDotUnderscore {x : Char} {l : List Char}
    (h : x ∈ stripDotUnderscore l) : x ∈ l := by
  unfold stripDotUnderscore at h
  have h1 := (List.dropWhile_sublist pDotUnderscore).subset h
  rw [List.mem_reverse] at h1
  have h2 := (List.dropWhile_sublist pDotUnderscore).subset h1
  rwa [List.mem_reverse] at h2

theorem dropWhile_head_false {p : Char → Bool} :
    ∀ (l : List Char) {c : Char} {rest : List Char},
      l.dropWhile p = c :: rest → p c = false := by
  intro l
  induction l with
  | nil => intro c rest h; simp [List.dropWhile] at h
  | cons a t ih =>
    intro c rest h
    by_cases hp : p a = true
    · rw [List.dropWhile_cons_of_pos hp] at h
      exact ih h
    · rw [List.dropWhile_cons_of_neg hp] at h
      cases h
      simpa using hp

theorem stripDotUnderscore_head {l : List Char} {c : Char} {rest : List Char}
    (h : stripDotUnderscore l = c :: rest) : pDotUnderscore c = false := by
  unfold stripDotUnderscore at h
  exact dropWhile_head_false _ h

theorem secureFilenameChars_safe {x : Char} {l : List Char}
    (h : x ∈ secureFilenameChars l) : isSafeChar x = true := by
  simp only [secureFilenameChars] at h
  exact (List.mem_filter.mp (mem_stripDotUnderscore h)).2

theorem slash_not_mem_secure_filename (f : String) :
    '/' ∉ (secure_filename f).data := by
  intro h
  have hs : isSafeChar '/' = true := secureFilenameChars_safe h
  exact absurd hs (by decide)

theorem secure_filename_ne_dotdot (f : String) : secure_filename f ≠ ".." := by
  intro h
  have hd : secureFilenameChars f.data = ['.', '.'] := by
    have := congrArg String.data h
    exact this
  simp only [secureFilenameChars] at hd
  have := stripDotUnderscore_head hd
  exact absurd this (by decide)

theorem secure_filename_ne_dot (f : String) : secure_filename f ≠ "." := by
  intro h
  have hd : secureFilenameChars f.data = ['.'] := by
    have := congrArg String.data h
    exact this
  simp only [secureFilenameChars] at hd
  have := stripDotUnderscore_head hd
  exact absurd this (by decide)

theorem osPathJoin_uploads (n : String) (hn : '/' ∉ n.data) :
    osPathJoin UPLOAD_FOLDER n = "static/images/uploads/" ++ n := by
  unfold osPathJoin
  have h1 : ¬ n.data.head? = some '/' := by
    cases hd : n.data with
    | nil => simp
    | cons c cs =>
      simp only [List.head?]
      intro hc
      injection hc with hc
      apply hn
      rw [hd, ← hc]
      exact List.mem_cons_self c cs
  rw [if_neg h1, if_neg (by decide)]
  have h2 : (UPLOAD_FOLDER ++ "/") = "static/images/uploads/" := by decide
  rw [← h2]

theorem find?_append_last {l : List Book} {x : Book} {p : Book → Bool}
    (hl : ∀ b ∈ l, p b = false) (hx : p x = true) :
    (l ++ [x]).find? p = some x := by
  induction l with
  | nil => simp [hx]
  | cons a t ih =>
    have ha := hl a (List.mem_cons_self a t)
    rw [List.cons_append]
    have hcons : ((a :: (t ++ [x])).find? p) = (t ++ [x]).find? p := by
      simp [ha]
    rw [hcons]
    exact ih fun b hb => hl b (List.mem_cons_of_mem a hb)

theorem find?_map_replace {l : List Book} {bid : Nat} {b0 b' : Book}
    (h : l.find? (fun b => b.id == bid) = some b0) (hid : b'.id = b0.id) :
    (l.map fun x => if x.id == bid then b' else x).find?
      (fun b => b.id == bid) = some b' := by
  induction l with
  | nil => simp at h
  | cons a t ih =>
    by_cases ha : (a.id == bid) = true
    · have hfind : (a :: t).find? (fun b => b.id == bid) = some a := by
        simp [ha]
      rw [hfind] at h
      injection h with h
      subst h
      have hb' : (b'.id == bid) = true := by rw [hid]; exact ha
      simp only [List.map_cons, if_pos ha]
      simp [hb']
    · have hfind : (a :: t).find? (fun b => b.id == bid)
          = t.find? (fun b => b.id == bid) := by
        simp [ha]
      rw [hfind] at h
      simp only [List.map_cons, if_neg ha]
      have hstep : ((a :: t.map fun x => if x.id == bid then b' else x).find?
          (fun b => b.id == bid))
          = (t.map fun x => if x.id == bid then b' else x).find?
              (fun b => b.id == bid) := by
        simp [ha]
      rw [hstep]
      exact ih h

theorem add_book_writes (s : Store) (form : Form) (upload : Option String) :
    (add_book s form upload).writes = (resolveCover upload).2.toList := by
  simp only [add_book]
  split
  · split <;> rfl
  · rfl

theorem add_book_ok_cover {s : Store} {form : Form} {upload : Option String}
    {b : Book} (hb : (add_book s form upload).outcome = .ok b) :
    b.cover_image = (resolveCover upload).1 := by
  simp only [add_book] at hb
  split at hb
  · split at hb
    · injection hb with hb
      rw [← hb]
      rfl
    · exact absurd hb (by simp)
  · exact absurd hb (by simp)

theorem getBook_find {s : Store} {bid : Nat} {b0 : Book}
    (h : getBook s bid = .ok b0) :
    s.books.find? (fun b => b.id == bid) = some b0 := by
  unfold getBook at h
  cases hf : s.books.find? (fun b => b.id == bid) with
  | none => rw [hf] at h; exact absurd h (by simp)
  | some b =>
    rw [hf] at h
    injection h with h
    rw [h]

/-! Claims. -/

/-- Claim C1: for every stored book id, updating with no new cover upload
(`newCover = none`, i.e. the file was absent from the request or its
filename was empty) leaves `cover_image` exactly as it was before the call
while `title`, `author`, `year` and `description` are overwritten with the
supplied values; updating with a new resolved cover `X` sets `cover_image`
to `X` exactly.  Both the returned record and the record read back from the
updated store witness this. -/
theorem c1_update_frame (s : Store) (bid : Nat) (t a : String) (y : Int)
    (d : String) (b0 : Book) (h : getBook s bid = .ok b0) :
    (updateBook s bid t a y d none).2
        = .ok ⟨b0.id, t, a, y, d, b0.cover_image⟩
    ∧ getBook (updateBook s bid t a y d none).1 bid
        = .ok ⟨b0.id, t, a, y, d, b0.cover_image⟩
    ∧ ∀ X : String,
        (updateBook s bid t a y d (some X)).2 = .ok ⟨b0.id, t, a, y, d, X⟩
        ∧ getBook (updateBook s bid t a y d (some X)).1 bid
            = .ok ⟨b0.id, t, a, y, d, X⟩ := by
  have hfind := getBook_find h
  refine ⟨?_, ?_, fun X => ⟨?_, ?_⟩⟩
  · simp only [updateBook, hfind]
    rfl
  · simp only [updateBook, hfind, getBook]
    rw [@find?_map_replace s.books bid b0
      ⟨b0.id, t, a, y, d, none.getD b0.cover_image⟩ hfind rfl]
    rfl
  · simp only [updateBook, hfind]
    rfl
  · simp only [updateBook, hfind, getBook]
    rw [@find?_map_replace s.books bid b0
      ⟨b0.id, t, a, y, d, (some X).getD b0.cover_image⟩ hfind rfl]
    rfl

theorem c1_update_frame_witness :
    (updateBook ⟨[⟨0, "t", "a", 1, "d", "c"⟩], 1⟩ 0 "t2" "a2" 2 "d2" none).2
        = .ok ⟨0, "t2", "a2", 2, "d2", "c"⟩
    ∧ getBook (updateBook ⟨[⟨0, "t", "a", 1, "d", "c"⟩], 1⟩ 0
          "t2" "a2" 2 "d2" none).1 0
        = .ok ⟨0, "t2", "a2", 2, "d2", "c"⟩
    ∧ ∀ X : String,
        (updateBook ⟨[⟨0, "t", "a", 1, "d", "c"⟩], 1⟩ 0
            "t2" "a2" 2 "d2" (some X)).2 = .ok ⟨0, "t2", "a2", 2, "d2", X⟩
        ∧ getBook (updateBook ⟨[⟨0, "t", "a", 1, "d", "c"⟩], 1⟩ 0
              "t2" "a2" 2 "d2" (some X)).1 0
            = .ok ⟨0, "t2", "a2", 2, "d2", X⟩ :=
  c1_update_frame ⟨[⟨0, "t", "a", 1, "d", "c"⟩], 1⟩ 0 "t2" "a2" 2 "d2"
    ⟨0, "t", "a", 1, "d", "c"⟩ (by decide)

/-- Claim C2 (counterexample): the claim asserts that the stored reference
never contains the substring `".."`, but an upload whose original filename
is `"a..b"` sanitizes to `"a..b"` (interior dots survive
`secure_filename`) and the stored reference `"images/uploads/a..b"` does
contain `".."`. -/
theorem c2_sanitize_counterexample :
    secure_filename "a..b" = "a..b"
    ∧ (resolveCover (some "a..b")).1 = "images/uploads/a..b"
    ∧ hasSub ['.', '.'] ("images/uploads/a..b").data = true := by decide

/-- Claim C2 (amended): every filesystem write the resolver performs lands
at `UPLOAD_FOLDER ++ "/" ++ n` where `n = secure_filename f` is a single
path component — it contains no `/` and is neither `".."` nor `"."` — so
the write never escapes the uploads directory; and the stored reference is
`"images/uploads/" ++ n`, in which `".."` can occur only inside that one
sanitized filename, never as a path component. -/
theorem c2_sanitize_amended (f : String) (w : FileWrite)
    (hw : (resolveCover (some f)).2 = some w) :
    w.path = "static/images/uploads/" ++ secure_filename f
    ∧ '/' ∉ (secure_filename f).data
    ∧ secure_filename f ≠ ".."
    ∧ secure_filename f ≠ "."
    ∧ (resolveCover (some f)).1 = "images/uploads/" ++ secure_filename f := by
  by_cases hf : f = ""
  · subst hf
    exact absurd hw (by simp [resolveCover])
  · have hres : resolveCover (some f)
        = ("images/uploads/" ++ secure_filename f,
           some ⟨osPathJoin UPLOAD_FOLDER (secure_filename f)⟩) := by
      simp [resolveCover, hf]
    rw [hres] at hw ⊢
    injection hw with hw
    refine ⟨?_, slash_not_mem_secure_filename f, secure_filename_ne_dotdot f,
      secure_filename_ne_dot f, rfl⟩
    rw [← hw]
    exact osPathJoin_uploads (secure_filename f) (slash_not_mem_secure_filename f)

theorem c2_sanitize_witness :
    (⟨"static/images/uploads/etc_passwd"⟩ : FileWrite).path
        = "static/images/uploads/" ++ secure_filename "../../etc/passwd"
    ∧ '/' ∉ (secure_filename "../../etc/passwd").data
    ∧ secure_filename "../../etc/passwd" ≠ ".."
    ∧ secure_filename "../../etc/passwd" ≠ "."
    ∧ (resolveCover (some "../../etc/passwd")).1
        = "images/uploads/" ++ secure_filename "../../etc/passwd" :=
  c2_sanitize_amended "../../etc/passwd" ⟨"static/images/uploads/etc_passwd"⟩
    (by decide)

/-- Claim C3: starting from a store whose rows all have ids below the next
key (true of every reachable store), creating a book and reading it back by
the id assigned at creation returns a record whose fields all equal the
values passed to create. -/
theorem c3_create_get_roundtrip (s : Store)
    (hwf : ∀ b ∈ s.books, b.id < s.nextId) (t a : String) (y : Int)
    (d c : String) :
    getBook (createBook s t a y d c).1 (createBook s t a y d c).2.id
        = .ok (createBook s t a y d c).2
    ∧ (createBook s t a y d c).2.title = t
    ∧ (createBook s t a y d c).2.author = a
    ∧ (createBook s t a y d c).2.year = y
    ∧ (createBook s t a y d c).2.description = d
    ∧ (createBook s t a y d c).2.cover_image = c := by
  refine ⟨?_, rfl, rfl, rfl, rfl, rfl⟩
  have hl : ∀ b ∈ s.books, ((fun b : Book => b.id == s.nextId) b) = false := by
    intro b hb
    have := hwf b hb
    simp only [beq_eq_false_iff_ne]
    omega
  have hx : ((fun b : Book => b.id == s.nextId)
      (⟨s.nextId, t, a, y, d, c⟩ : Book)) = true := by simp
  simp only [getBook, createBook]
  rw [find?_append_last hl hx]

theorem c3_create_get_roundtrip_witness :
    getBook (createBook ⟨[], 0⟩ "Dune" "Frank Herbert" 1965 "desc"
          "images/default_cover.jpg").1
        (createBook ⟨[], 0⟩ "Dune" "Frank Herbert" 1965 "desc"
          "images/default_cover.jpg").2.id
      = .ok (createBook ⟨[], 0⟩ "Dune" "Frank Herbert" 1965 "desc"
          "images/default_cover.jpg").2
    ∧ (createBook ⟨[], 0⟩ "Dune" "Frank Herbert" 1965 "desc"
        "images/default_cover.jpg").2.title = "Dune"
    ∧ (createBook ⟨[], 0⟩ "Dune" "Frank Herbert" 1965 "desc"
        "images/default_cover.jpg").2.author = "Frank Herbert"
    ∧ (createBook ⟨[], 0⟩ "Dune" "Frank Herbert" 1965 "desc"
        "images/default_cover.jpg").2.year = 1965
    ∧ (createBook ⟨[], 0⟩ "Dune" "Frank Herbert" 1965 "desc"
        "images/default_cover.jpg").2.description = "desc"
    ∧ (createBook ⟨[], 0⟩ "Dune" "Frank Herbert" 1965 "desc"
        "images/default_cover.jpg").2.cover_image
          = "images/default_cover.jpg" :=
  c3_create_get_roundtrip ⟨[], 0⟩ (by simp) "Dune" "Frank Herbert" 1965
    "desc" "images/default_cover.jpg"

/-- Claim C4: a create request with no file (or a file with an empty name)
performs no filesystem write, and the record it creates carries the fixed
sentinel `"images/default_cover.jpg"` as its cover. -/
theorem c4_default_cover (s : Store) (form : Form) (upload : Option String)
    (hup : upload = none ∨ upload = some "") :
    (add_book s form upload).writes = []
    ∧ ∀ b, (add_book s form upload).outcome = .ok b →
        b.cover_image = "images/default_cover.jpg" := by
  have hrc : resolveCover upload = ("images/default_cover.jpg", none) := by
    rcases hup with h | h <;> subst h <;> simp [resolveCover]
  constructor
  · rw [add_book_writes, hrc]
    rfl
  · intro b hb
    rw [add_book_ok_cover hb, hrc]

theorem c4_default_cover_witness :
    (add_book ⟨[], 0⟩ ⟨some "Dune", some "Frank Herbert", some "1965",
        some "desc"⟩ none).writes = []
    ∧ ∀ b, (add_book ⟨[], 0⟩ ⟨some "Dune", some "Frank Herbert", some "1965",
        some "desc"⟩ none).outcome = .ok b →
        b.cover_image = "images/default_cover.jpg" :=
  c4_default_cover ⟨[], 0⟩
    ⟨some "Dune", some "Frank Herbert", some "1965", some "desc"⟩ none
    (Or.inl rfl)

/-- Claim C5: after a successful `delete(id)`, `get(id)` fails with
`notFound`; and when no record with the id exists, `get`, `update` and
`delete` all fail with `notFound` and leave the store unchanged. -/
theorem c5_notfound (s : Store) (bid : Nat) :
    ((delete_book s bid).2 = .ok () →
      getBook (delete_book s bid).1 bid = .error .notFound)
    ∧ ((∀ b ∈ s.books, b.id ≠ bid) →
        getBook s bid = .error .notFound
        ∧ delete_book s bid = (s, .error .notFound)
        ∧ ∀ (t a : String) (y : Int) (d : String) (nc : Option String),
            updateBook s bid t a y d nc = (s, .error .notFound)) := by
  constructor
  · intro hdel
    cases hf : s.books.find? (fun b => b.id == bid) with
    | none =>
      rw [show delete_book s bid = (s, .error .notFound) from by
        simp only [delete_book, hf]] at hdel
      exact absurd hdel (by simp)
    | some b =>
      simp only [delete_book, hf, getBook]
      rw [List.find?_eq_none.mpr]
      intro x hx
      have := (List.mem_filter.mp hx).2
      simpa using this
  · intro hne
    have hf : s.books.find? (fun b => b.id == bid) = none := by
      rw [List.find?_eq_none]
      intro x hx
      simpa using hne x hx
    exact ⟨by simp only [getBook, hf], by simp only [delete_book, hf],
      fun t a y d nc => by simp only [updateBook, hf]⟩

theorem c5_notfound_witness :
    getBook (delete_book ⟨[⟨0, "t", "a", 1, "d", "c"⟩], 1⟩ 0).1 0
        = .error .notFound
    ∧ (getBook (⟨[⟨0, "t", "a", 1, "d", "c"⟩], 1⟩ : Store) 5
        = .error .notFound
      ∧ delete_book ⟨[⟨0, "t", "a", 1, "d", "c"⟩], 1⟩ 5
        = (⟨[⟨0, "t", "a", 1, "d", "c"⟩], 1⟩, .error .notFound)
      ∧ ∀ (t a : String) (y : Int) (d : String) (nc : Option String),
          updateBook ⟨[⟨0, "t", "a", 1, "d", "c"⟩], 1⟩ 5 t a y d nc
            = (⟨[⟨0, "t", "a", 1, "d", "c"⟩], 1⟩, .error .notFound)) :=
  ⟨(c5_notfound ⟨[⟨0, "t", "a", 1, "d", "c"⟩], 1⟩ 0).1 (by decide),
   (c5_notfound ⟨[⟨0, "t", "a", 1, "d", "c"⟩], 1⟩ 5).2 (by decide)⟩

/-- Claim C6: a create request fails with a validation error exactly when a
required scalar is missing or the year string is not an integer; any error
leaves the store without a new record (not even a partial one); and with
all scalars present and an integer year, create succeeds. -/
theorem c6_create_validation (s : Store) (form : Form)
    (upload : Option String) :
    ((add_book s form upload).outcome = .error .validation ↔
      form.title = none ∨ form.author = none ∨ form.year = none
      ∨ form.description = none
      ∨ ∃ ys, form.year = some ys ∧ pyInt ys = none)
    ∧ (∀ e, (add_book s form upload).outcome = .error e →
        (add_book s form upload).store = s)
    ∧ (∀ t a ys d y, form = ⟨some t, some a, some ys, some d⟩ →
        pyInt ys = some y →
        ∃ b, (add_book s form upload).outcome = .ok b) := by
  obtain ⟨ot, oa, oy, od⟩ := form
  cases ot <;> cases oa <;> cases oy <;> cases od <;>
    simp only [add_book, Form.mk.injEq] <;>
    try (exact ⟨by simp, by simp, by simp⟩)
  rename_i t a ys d
  cases hpy : pyInt ys with
  | none =>
    refine ⟨by simp [hpy], by simp, ?_⟩
    intro t' a' ys' d' y' hform hy'
    obtain ⟨-, -, hys, -⟩ := hform
    injection hys with hys
    rw [← hys, hpy] at hy'
    simp at hy'
  | some y =>
    refine ⟨by simp [hpy], by simp, ?_⟩
    intro t' a' ys' d' y' hform hy'
    exact ⟨(createBook s t a y d (resolveCover upload).1).2, rfl⟩

theorem c6_create_validation_witness :
    ∃ b, (add_book ⟨[], 0⟩ ⟨some "Dune", some "Frank Herbert", some "1965",
        some "desc"⟩ none).outcome = .ok b :=
  (c6_create_validation ⟨[], 0⟩
      ⟨some "Dune", some "Frank Herbert", some "1965", some "desc"⟩
      none).2.2 "Dune" "Frank Herbert" "1965" "desc" 1965 rfl (by decide)

theorem nextId_le_applyOp (s : Store) (op : Op) :
    s.nextId ≤ (applyOp s op).nextId := by
  cases op with
  | create t a y d c => exact Nat.le_succ _
  | deleteOp bid =>
    cases hf : s.books.find? (fun b => b.id == bid) with
    | none => simp only [applyOp, delete_book, hf]; exact Nat.le_refl _
    | some b => simp only [applyOp, delete_book, hf]; exact Nat.le_refl _

theorem assigned_ge :
    ∀ (ops : List Op) (s : Store), ∀ x ∈ assignedIds s ops, s.nextId ≤ x := by
  intro ops
  induction ops with
  | nil => intro s x hx; simp [assignedIds] at hx
  | cons op rest ih =>
    intro s x hx
    cases op with
    | create t a y d c =>
      simp only [assignedIds] at hx
      rcases List.mem_cons.mp hx with h | h
      · exact h ▸ Nat.le_refl _
      · exact Nat.le_trans (nextId_le_applyOp s _) (ih _ x h)
    | deleteOp bid =>
      simp only [assignedIds] at hx
      exact Nat.le_trans (nextId_le_applyOp s _) (ih _ x hx)

theorem assigned_nodup :
    ∀ (ops : List Op) (s : Store), (assignedIds s ops).Nodup := by
  intro ops
  induction ops with
  | nil => intro s; simp [assignedIds]
  | cons op rest ih =>
    intro s
    cases op with
    | create t a y d c =>
      simp only [assignedIds]
      refine List.nodup_cons.mpr ⟨fun hmem => ?_, ih _⟩
      have hge := assigned_ge rest (applyOp s (.create t a y d c))
        s.nextId hmem
      have : (applyOp s (.create t a y d c)).nextId = s.nextId + 1 := rfl
      omega
    | deleteOp bid => simpa [assignedIds] using ih _

/-- Claim C7: over any sequence of create and delete operations starting
from a store whose rows all have ids below the next key, the ids handed out
at creation are pairwise distinct (each id is assigned exactly once), and
an id already present in the store — in particular one later deleted — is
never handed out again. -/
theorem c7_id_unique (s : Store) (hwf : ∀ b ∈ s.books, b.id < s.nextId)
    (ops : List Op) :
    (assignedIds s ops).Nodup
    ∧ ∀ b ∈ s.books, b.id ∉ assignedIds s ops := by
  refine ⟨assigned_nodup ops s, fun b hb hmem => ?_⟩
  have h1 := assigned_ge ops s b.id hmem
  have h2 := hwf b hb
  omega

theorem c7_id_unique_witness :
    (assignedIds ⟨[], 0⟩ [.create "t" "a" 1 "d" "c", .deleteOp 0,
        .create "t2" "a2" 2 "d2" "c2"]).Nodup
    ∧ ∀ b ∈ (⟨[], 0⟩ : Store).books,
        b.id ∉ assignedIds ⟨[], 0⟩ [.create "t" "a" 1 "d" "c", .deleteOp 0,
          .create "t2" "a2" 2 "d2" "c2"] :=
  c7_id_unique ⟨[], 0⟩ (by simp)
    [.create "t" "a" 1 "d" "c", .deleteOp 0, .create "t2" "a2" 2 "d2" "c2"]

/-- Claim C8: for every upload with a non-empty name the save path is
taken — the resolver writes the file — regardless of the extension: the
declared `ALLOWED_EXTENSIONS` set, as consulted by `allowed_file`, plays no
role, so in particular a file that `allowed_file` rejects is still
written. -/
theorem c8_extension_unchecked (f : String) (hf : f ≠ "") :
    ((resolveCover (some f)).2).isSome = true
    ∧ (allowed_file f = false → ((resolveCover (some f)).2).isSome = true) := by
  have h : (resolveCover (some f)).2
      = some ⟨osPathJoin UPLOAD_FOLDER (secure_filename f)⟩ := by
    simp [resolveCover, hf]
  rw [h]
  exact ⟨rfl, fun _ => rfl⟩

theorem c8_extension_unchecked_witness :
    ((resolveCover (some "virus.exe")).2).isSome = true
    ∧ (allowed_file "virus.exe" = false →
        ((resolveCover (some "virus.exe")).2).isSome = true) :=
  c8_extension_unchecked "virus.exe" (by decide)

/-- Claim C9: an upload whose byte size exceeds the configured maximum
(`MAX_CONTENT_LENGTH = 20 * 1024 * 1024`) is rejected as too large and no
filesystem write is performed. -/
theorem c9_size_limit (size : Nat) (upload : Option String)
    (h : MAX_CONTENT_LENGTH < size) :
    resolveSized size upload = (.error .payloadTooLarge, [])
    ∧ MAX_CONTENT_LENGTH = 20 * 1024 * 1024 := by
  exact ⟨by simp [resolveSized, h], rfl⟩

theorem c9_size_limit_witness :
    resolveSized (MAX_CONTENT_LENGTH + 1) (some "cover.png")
        = (.error .payloadTooLarge, [])
    ∧ MAX_CONTENT_LENGTH = 20 * 1024 * 1024 :=
  c9_size_limit (MAX_CONTENT_LENGTH + 1) (some "cover.png")
    (Nat.lt_succ_self _)

/-- Claim C10: a create request with a valid upload (non-empty name) and a
year that is not an integer writes the uploaded file to the uploads
directory, then fails with a validation error and adds no record — the
failed create leaves an orphan file on disk. -/
theorem c10_orphan_file (s : Store) (t a ys d f : String) (hf : f ≠ "")
    (hy : pyInt ys = none) :
    (add_book s ⟨some t, some a, some ys, some d⟩ (some f)).outcome
        = .error .validation
    ∧ (add_book s ⟨some t, some a, some ys, some d⟩ (some f)).store = s
    ∧ (add_book s ⟨some t, some a, some ys, some d⟩ (some f)).writes
        = [⟨osPathJoin UPLOAD_FOLDER (secure_filename f)⟩] := by
  simp [add_book, resolveCover, hf, hy]

theorem c10_orphan_file_witness :
    (add_book ⟨[], 0⟩ ⟨some "Dune", some "Frank Herbert", some "MCMLXV",
        some "desc"⟩ (some "dune.jpg")).outcome = .error .validation
    ∧ (add_book ⟨[], 0⟩ ⟨some "Dune", some "Frank Herbert", some "MCMLXV",
        some "desc"⟩ (some "dune.jpg")).store = ⟨[], 0⟩
    ∧ (add_book ⟨[], 0⟩ ⟨some "Dune", some "Frank Herbert", some "MCMLXV",
        some "desc"⟩ (some "dune.jpg")).writes
        = [⟨osPathJoin UPLOAD_FOLDER (secure_filename "dune.jpg")⟩] :=
  c10_orphan_file ⟨[], 0⟩ "Dune" "Frank Herbert" "MCMLXV" "desc" "dune.jpg"
    (by decide) (by decide)

end BookApp
